import Mathlib

/-!
Verification development for the AnRox repository: a Lean 4 shallow
embedding of the two signaling relay servers, the session coordinator
(the `ConnectionManager` class), the key-exchange routine and the
message-sealing routines, together with theorems about the behaviours
described in the specification.

External primitives (the WebSocket transport, WebRTC, the curve shared
secret primitive, SHA-256, AES-GCM) are modelled abstractly: the curve
operation as Diffie-Hellman exponentiation modulo a fixed prime, hashes
and AEAD ciphers as function parameters, sockets as explicit state.
Everything the code of the repository does itself (queueing, registry
updates, dispatch, envelope construction, flag handling) is translated
statement by statement from the TypeScript source.

Asynchrony is modelled by the fact that an `async` function body runs
synchronously up to the first `await` it reaches: a send performed after
an `await` (the offer produced by `createOffer`) is recorded as a pending
task executed after the synchronous part of the trace.
-/

namespace AnRox

/-! ## Identity relay

Embedding of the WebSocket signaling server that keys its registry by
public key: the mutable array `clients`, the functions `registerClient`
and `relayMessage`, and the message-type switch of the connection
handler. -/

namespace Relay

/-- Relay-side client record, mirroring the interface with fields `ws`
and `publicKey`.  The live socket is modelled by a numeric connection
identifier. -/
structure Client where
  publicKey : String
  conn : Nat
deriving DecidableEq, Repr

/-- Parsed signaling envelope as the relay sees it.  The fields `sender`
and `recipient` are optional in the parsed JSON; `publicKey` is the
identity carried by a registration message. -/
structure Envelope where
  type : String
  sender : Option String
  recipient : Option String
  publicKey : String
deriving DecidableEq, Repr

/-- Function `registerClient(ws, publicKey)`: look for an existing entry
with the same `publicKey`; when found, overwrite the socket of that entry
in place, otherwise push a new entry at the end of the array. -/
def registerClient : List Client → Nat → String → List Client
  | [], ws, pk => [⟨pk, ws⟩]
  | c :: rest, ws, pk =>
      if c.publicKey = pk then ⟨pk, ws⟩ :: rest
      else c :: registerClient rest ws pk

/-- Disconnect handling: `findIndex` on the socket followed by
`splice(index, 1)` removes the first entry whose socket matches. -/
def unregisterClient : List Client → Nat → List Client
  | [], _ => []
  | c :: rest, ws => if c.conn = ws then rest else c :: unregisterClient rest ws

/-- Function `relayMessage(message)`: with no `recipient` the envelope is
broadcast to every client whose `publicKey` differs from the sender field;
with a `recipient` it is unicast to the first matching client, or dropped
when none matches.  Deliveries are returned as pairs of socket identifier
and envelope, in registry order. -/
def relayMessage (clients : List Client) (msg : Envelope) : List (Nat × Envelope) :=
  match msg.recipient with
  | none =>
      (clients.filter fun c => some c.publicKey ≠ msg.sender).map fun c => (c.conn, msg)
  | some r =>
      match clients.find? fun c => c.publicKey = r with
      | some c => [(c.conn, msg)]
      | none => []

/-- Message types that the connection handler forwards through
`relayMessage`. -/
def relayedTypes : List String :=
  ["offer", "answer", "ice-candidate", "ecdh-public-key", "initiate", "encryption-ready"]

/-- Message dispatch of the connection handler: the type `register`
updates the registry, the six relayed types are routed, and every other
type falls out of the switch and does nothing. -/
def handleMessage (clients : List Client) (conn : Nat) (msg : Envelope) :
    List Client × List (Nat × Envelope) :=
  if msg.type = "register" then
    (registerClient clients conn msg.publicKey, [])
  else if msg.type ∈ relayedTypes then
    (clients, relayMessage clients msg)
  else
    (clients, [])

/-- Registry states reachable from the empty client list through the two
operations that mutate it: registration and socket disconnect. -/
inductive Reachable : List Client → Prop where
  | empty : Reachable []
  | register (s : List Client) (ws : Nat) (pk : String) :
      Reachable s → Reachable (registerClient s ws pk)
  | disconnect (s : List Client) (ws : Nat) :
      Reachable s → Reachable (unregisterClient s ws)

end Relay

/-! ## Room-variant relay

Embedding of the simpler server: an array of at most two sockets, a
room-full guard on connection, and an `init` message carrying the field
`isInitiator`. -/

namespace Room

/-- Result of the connection handler for one arriving socket: the new
client list, the JSON strings sent (socket identifier paired with text),
and the sockets closed by the handler. -/
structure ConnResult where
  clients : List Nat
  sentTo : List (Nat × String)
  closed : List Nat
deriving DecidableEq, Repr

/-- Exact text produced by stringifying the room-full error object. -/
def roomFullMsg : String := "\x7b\"type\":\"error\",\"message\":\"Room is full\"\x7d"

/-- Exact text produced by stringifying the `init` object for a given
initiator flag. -/
def initMsg (isInit : Bool) : String :=
  "\x7b\"type\":\"init\",\"isInitiator\":" ++ (if isInit then "true" else "false") ++ "\x7d"

/-- Connection handler: with two clients already present the newcomer is
sent the room-full error and its socket is closed; otherwise it is pushed
onto the array and told whether it is the initiator (the array has length
one after the push). -/
def onConnection (clients : List Nat) (ws : Nat) : ConnResult :=
  if 2 ≤ clients.length then
    ⟨clients, [(ws, roomFullMsg)], [ws]⟩
  else
    let clients2 := clients ++ [ws]
    ⟨clients2, [(ws, initMsg (clients2.length = 1))], []⟩

end Room

/-! ## Key exchange

Embedding of `deriveSharedSecret` in the `ConnectionManager`.  The curve
primitive is external; it is modelled as Diffie-Hellman exponentiation
modulo the curve25519 field prime, with private keys as abstract scalars
and public keys as the group elements `publicKeyOf` assigns to them.  The
SHA-256 that the source applies to the raw secret is an abstract function
parameter `H`.  The 32-byte length guard of the source is implicit in
this representation of keys as scalars and group elements. -/

namespace KE

/-- Field prime of curve25519. -/
def fieldOrder : Nat := 2 ^ 255 - 19

/-- Fixed base point, as an abstract group generator. -/
def gen : Nat := 9

/-- External Diffie-Hellman primitive: raise the public element of the
peer to the local secret scalar. -/
def getSharedSecret (priv pub : Nat) : Nat := pub ^ priv % fieldOrder

/-- Public key belonging to a private scalar. -/
def publicKeyOf (priv : Nat) : Nat := gen ^ priv % fieldOrder

/-- Function `deriveSharedSecret`: compute the shared point from the local
private key and the public key of the peer, then hash it with `H` (the
source applies SHA-256 to the raw shared secret). -/
def deriveSharedSecret (H : Nat → Nat) (priv pub : Nat) : Nat :=
  H (getSharedSecret priv pub)

end KE

/-! ## Message sealing

Embedding of `encryptMessage` and `decryptMessage`.  AES-GCM is external:
`enc` and `dec` are abstract cipher parameters taking the session key and
the twelve-byte IV.  The contribution of the repository itself is the
framing: `encryptMessage` prefixes the freshly drawn IV to the
ciphertext, and `decryptMessage` splits the received blob at byte twelve
(`slice(0, 12)` and `slice(12)`). -/

namespace SC

/-- Function `encryptMessage`: the returned blob is the IV followed by the
ciphertext the external cipher produces. -/
def encryptMessage (enc : List Nat → List Nat → List Nat → List Nat)
    (key iv msg : List Nat) : List Nat :=
  iv ++ enc key iv msg

/-- Function `decryptMessage`: split the blob at byte twelve and decrypt;
the external cipher reports authentication failure as `none`. -/
def decryptMessage (dec : List Nat → List Nat → List Nat → Option (List Nat))
    (key blob : List Nat) : Option (List Nat) :=
  dec key (blob.take 12) (blob.drop 12)

end SC

/-! ## Session coordinator

Embedding of the `ConnectionManager` class: its mutable fields become a
state record, each method becomes a state transformer, and the envelopes
the WebSocket transmits are accumulated in order in the field `sent`
(the sequence the relay observes from this peer). -/

namespace CM

/-- Signaling envelope as built by the coordinator. -/
structure Env where
  type : String
  sender : Option String
  recipient : Option String
  publicKey : Option String
deriving DecidableEq, Repr

/-- Events the coordinator emits to its host application. -/
inductive CMEvent where
  | encryptionReady
  | error (msg : String)
  | dataChannelReady
  | dataChannelClosed
deriving DecidableEq, Repr

/-- Deferred continuations of async methods: the only one the modelled
trace needs is the send of the offer, which happens after the first
`await` inside `createOffer`. -/
inductive PendingTask where
  | offerSend
deriving DecidableEq, Repr

/-- State of one `ConnectionManager`: the WebSocket (alive flag and
open-readyState flag), the outbound queue `messageQueue`, the envelopes
the socket has transmitted in order, and the remaining mutable fields of
the class. -/
structure CMState where
  wsAlive : Bool
  wsOpen : Bool
  queue : List Env
  sent : List Env
  isInitiator : Bool
  recipient : Option String
  complete : Bool
  inProgress : Bool
  selfKey : String
  hasPC : Bool
  hasDC : Bool
  encKey : Option Nat
  events : List CMEvent
  pending : List PendingTask
deriving DecidableEq, Repr

/-- Method `sendMessage`: transmit at once when the socket readyState is
OPEN, otherwise push the envelope onto `messageQueue`. -/
def sendMessage (s : CMState) (m : Env) : CMState :=
  if s.wsOpen then { s with sent := s.sent ++ [m] } else { s with queue := s.queue ++ [m] }

/-- Method `sendQueuedMessages`: repeatedly shift the front of the queue
and transmit it, which sends the whole queue in FIFO order. -/
def sendQueuedMessages (s : CMState) : CMState :=
  { s with sent := s.sent ++ s.queue, queue := [] }

/-- Envelope sent by `initializeEncryption`: the local ECDH public key,
addressed to the current recipient. -/
def ecdhEnv (s : CMState) : Env :=
  ⟨"ecdh-public-key", some s.selfKey, s.recipient, none⟩

/-- Method `initializeEncryption`: skip when setup is already complete or
already in progress; otherwise set the in-progress flag, send the local
public key, and clear the flag in the `finally` block.  The body reaches
no `await`, so it runs synchronously to completion and the in-progress
flag is already cleared when the method returns. -/
def initEncryption (s : CMState) : CMState :=
  if s.complete then s
  else if s.inProgress then s
  else
    let s1 := { s with inProgress := true }
    let s2 := sendMessage s1 (ecdhEnv s1)
    { s2 with inProgress := false }

/-- Method `createOffer`: the offer is produced by an awaited browser
call, so its send is a deferred continuation appended to the pending
list. -/
def createOffer (s : CMState) : CMState :=
  { s with pending := s.pending ++ [PendingTask.offerSend] }

/-- Execution of one deferred continuation, reading the state at the time
it runs. -/
def runPendingTask (s : CMState) : PendingTask → CMState
  | PendingTask.offerSend => sendMessage s ⟨"offer", some s.selfKey, s.recipient, none⟩

/-- Drain the pending continuations in order, after the synchronous part
of the trace has finished. -/
def runPending (s : CMState) : CMState :=
  s.pending.foldl runPendingTask { s with pending := [] }

/-- Method `initializePeerConnection`: create the peer connection; as the
initiator also create the data channel and start `createOffer`; in either
role finish by calling `initializeEncryption`. -/
def initPeerConnection (s : CMState) : CMState :=
  let s1 := { s with hasPC := true }
  let s2 := if s1.isInitiator then createOffer { s1 with hasDC := true } else s1
  initEncryption s2

/-- Method `initiatePeerConnection`: require a recipient, then run
`initializePeerConnection` and send the initiate envelope. -/
def initiatePC (s : CMState) : CMState :=
  match s.recipient with
  | none => s
  | some r =>
      sendMessage (initPeerConnection s) ⟨"initiate", some s.selfKey, some r, none⟩

/-- Method `setRecipientPublicKey`: record the recipient, become the
initiator, reset the completion flag, run `initiatePeerConnection`, and
then call `initializeEncryption` once more. -/
def setRecipientPublicKey (s : CMState) (pk : String) : CMState :=
  initEncryption
    (initiatePC { s with recipient := some pk, isInitiator := true, complete := false })

/-- Registration envelope carrying the local identity. -/
def registerEnv (pk : String) : Env := ⟨"register", none, none, some pk⟩

/-- Method `registerWithServer`: send the registration envelope. -/
def registerWithServer (s : CMState) : CMState := sendMessage s (registerEnv s.selfKey)

/-- Handler of the case `encryption-ready` in `handleWebSocketMessage`:
when the sender is the expected recipient, set the completion flag and
emit the readiness event.  The source has no guard on the completion flag
in this branch. -/
def handleEncryptionReady (s : CMState) (sender : String) : CMState :=
  if some sender = s.recipient then
    { s with complete := true, events := s.events ++ [CMEvent.encryptionReady] }
  else s

/-- Method `handleECDHPublicKey`: when the sender is the expected
recipient and setup is not complete, derive the key (the external
derivation is the parameter `derive`), set the completion flag, emit
readiness, and send the confirmation envelope; otherwise ignore. -/
def handleECDHPublicKey (derive : String → Nat) (s : CMState)
    (keyB64 sender : String) : CMState :=
  if some sender = s.recipient ∧ s.complete = false then
    sendMessage
      { s with encKey := some (derive keyB64), complete := true,
               events := s.events ++ [CMEvent.encryptionReady] }
      ⟨"encryption-ready", some s.selfKey, s.recipient, none⟩
  else s

/-- Text of the error the WebSocket close handler emits. -/
def wsCloseMsg : String := "Connection to the server was closed"

/-- Method `cleanup` together with the observable consequences of the
close calls it makes: the socket, peer connection and data channel are
closed; closing a live socket fires the registered close handler, which
emits one error event.  The field `encryptionKey` is not touched by the
source.  WebRTC teardown callbacks other than the WebSocket close handler
are outside the model. -/
def cleanup (s : CMState) : CMState :=
  { s with wsAlive := false, wsOpen := false, hasPC := false, hasDC := false,
           events := s.events ++ if s.wsAlive then [CMEvent.error wsCloseMsg] else [] }

/-- Coordinator state of peer A directly after `init()` finished on an
already-open relay link: registered, no recipient yet, nothing queued. -/
def scenarioStart : CMState :=
  { wsAlive := true, wsOpen := true, queue := [], sent := [registerEnv "A"],
    isInitiator := false, recipient := none, complete := false, inProgress := false,
    selfKey := "A", hasPC := false, hasDC := false, encKey := none,
    events := [], pending := [] }

/-- Envelope types the relay observes from peer A, in order, for the
scenario in which A calls `setRecipientPublicKey("B")` and the deferred
offer send then runs. -/
def scenarioTrace : List String :=
  ((runPending (setRecipientPublicKey scenarioStart "B")).sent).map Env.type

/-- Fresh coordinator state at construction, before the socket has
opened. -/
def connState0 (pk : String) : CMState :=
  { wsAlive := true, wsOpen := false, queue := [], sent := [],
    isInitiator := false, recipient := none, complete := false, inProgress := false,
    selfKey := pk, hasPC := false, hasDC := false, encKey := none,
    events := [], pending := [] }

/-- The `init()` flow with a list of send attempts made before the link
opens: the attempts go through `sendMessage` against the closed socket,
the open handler flushes the queue with `sendQueuedMessages`, and only
then does the continuation of `init()` call `registerWithServer`. -/
def connectAndRegister (pk : String) (preOpen : List Env) : CMState :=
  registerWithServer
    (sendQueuedMessages { preOpen.foldl sendMessage (connState0 pk) with wsOpen := true })

/-- Example envelope whose send is attempted before the link opens. -/
def preEnv : Env := ⟨"ice-candidate", some "A", some "B", none⟩

/-- Coordinator state whose key exchange has already completed, with the
readiness event already emitted once. -/
def c3State : CMState :=
  { wsAlive := true, wsOpen := true, queue := [], sent := [],
    isInitiator := true, recipient := some "B", complete := true, inProgress := false,
    selfKey := "A", hasPC := true, hasDC := true, encKey := some 7,
    events := [CMEvent.encryptionReady], pending := [] }

/-- Coordinator state of an established session, used to observe what
`cleanup` does. -/
def c4State : CMState :=
  { wsAlive := true, wsOpen := true, queue := [], sent := [],
    isInitiator := true, recipient := some "B", complete := true, inProgress := false,
    selfKey := "A", hasPC := true, hasDC := true, encKey := some 7,
    events := [], pending := [] }

end CM

/-! ## Helper lemmas -/

/-- Identities of a registry after `registerClient`: unchanged when the
identity was already present, otherwise the identity is appended. -/
theorem registerClient_map_publicKey (l : List Relay.Client) (ws : Nat) (pk : String) :
    (Relay.registerClient l ws pk).map Relay.Client.publicKey =
      if pk ∈ l.map Relay.Client.publicKey then l.map Relay.Client.publicKey
      else l.map Relay.Client.publicKey ++ [pk] := by
  induction l with
  | nil => simp [Relay.registerClient]
  | cons c rest ih =>
      by_cases hc : c.publicKey = pk
      · simp [Relay.registerClient, hc]
      · have hne : pk ≠ c.publicKey := fun h => hc h.symm
        by_cases hm : pk ∈ rest.map Relay.Client.publicKey
        · simp [Relay.registerClient, hc, ih, hm, hne]
        · simp [Relay.registerClient, hc, ih, hm, hne]

/-- Registration preserves distinctness of registered identities. -/
theorem registerClient_nodup (l : List Relay.Client) (ws : Nat) (pk : String)
    (h : (l.map Relay.Client.publicKey).Nodup) :
    ((Relay.registerClient l ws pk).map Relay.Client.publicKey).Nodup := by
  rw [registerClient_map_publicKey]
  by_cases hm : pk ∈ l.map Relay.Client.publicKey
  · rw [if_pos hm]
    exact h
  · simpa [hm] using (List.nodup_append.mpr ⟨h, List.nodup_singleton pk, by
      intro a ha hb
      simp at hb
      exact hm (hb ▸ ha)⟩)

/-- Disconnect handling yields a sublist of the registry. -/
theorem unregisterClient_sublist (l : List Relay.Client) (ws : Nat) :
    (Relay.unregisterClient l ws).Sublist l := by
  induction l with
  | nil => simp [Relay.unregisterClient]
  | cons c rest ih =>
      by_cases hc : c.conn = ws
      · simp only [Relay.unregisterClient, if_pos hc]
        exact List.sublist_cons_self c rest
      · simp only [Relay.unregisterClient, if_neg hc]
        exact List.Sublist.cons₂ c ih

/-- Every reachable registry has pairwise-distinct identities. -/
theorem reachable_nodup (s : List Relay.Client) (h : Relay.Reachable s) :
    (s.map Relay.Client.publicKey).Nodup := by
  induction h with
  | empty => simp
  | register s ws pk _ ih => exact registerClient_nodup s ws pk ih
  | disconnect s ws _ ih =>
      exact ih.sublist (List.Sublist.map Relay.Client.publicKey (unregisterClient_sublist s ws))

/-- After any registration, the first registry entry for the registered
identity carries the registering socket. -/
theorem registerClient_find (l : List Relay.Client) (ws : Nat) (pk : String) :
    (Relay.registerClient l ws pk).find? (fun c => c.publicKey = pk) = some ⟨pk, ws⟩ := by
  induction l with
  | nil => simp [Relay.registerClient]
  | cons c rest ih =>
      by_cases hc : c.publicKey = pk
      · simp [Relay.registerClient, hc]
      · simp [Relay.registerClient, hc, ih]

/-- Sends attempted against a closed socket are appended to the queue in
order and transmit nothing; the socket state and identity are
untouched. -/
theorem foldl_send_closed (pre : List CM.Env) (s : CM.CMState) (h : s.wsOpen = false) :
    (pre.foldl CM.sendMessage s).queue = s.queue ++ pre ∧
      (pre.foldl CM.sendMessage s).sent = s.sent ∧
      (pre.foldl CM.sendMessage s).wsOpen = false ∧
      (pre.foldl CM.sendMessage s).selfKey = s.selfKey := by
  induction pre generalizing s with
  | nil => simp [h]
  | cons e rest ih =>
      have hs : CM.sendMessage s e = { s with queue := s.queue ++ [e] } := by
        simp [CM.sendMessage, h]
      have := ih { s with queue := s.queue ++ [e] } (by simpa using h)
      simpa [hs, List.append_assoc] using this

/-! ## Claim theorems -/

/-- Claim C1, counterexample.  In the two-party scenario (peer A with an
open, registered relay link calling `setRecipientPublicKey("B")`), the
envelope sequence the relay observes from A is NOT the four-element
sequence register, ecdh-public-key, initiate, offer claimed by the
specification. -/
theorem claim1_counterexample :
    CM.scenarioTrace ≠ ["register", "ecdh-public-key", "initiate", "offer"] := by
  have he : CM.scenarioTrace =
      ["register", "ecdh-public-key", "initiate", "ecdh-public-key", "offer"] := rfl
  rw [he]
  intro h
  simpa using congrArg List.length h

/-- Claim C1, amended.  The relay in fact observes from A, in order:
register, ecdh-public-key, initiate, ecdh-public-key, offer.  The
ecdh-public-key envelope is sent twice: once by the `initializeEncryption`
call at the end of `initializePeerConnection` and once more by the second
`initializeEncryption` call in `setRecipientPublicKey`, because the
in-progress guard is cleared synchronously before the second call and the
completion flag was reset.  The other three types are each sent once. -/
theorem claim1_amended :
    CM.scenarioTrace =
      ["register", "ecdh-public-key", "initiate", "ecdh-public-key", "offer"] := by
  rfl

/-- Claim C2, counterexample.  One send attempted before the relay link
opens is flushed from the queue ahead of the registration envelope, so
register is not the first envelope the relay receives. -/
theorem claim2_counterexample :
    (CM.connectAndRegister "A" [CM.preEnv]).sent.head? ≠ some (CM.registerEnv "A") ∧
      (CM.connectAndRegister "A" [CM.preEnv]).sent = [CM.preEnv, CM.registerEnv "A"] := by
  constructor
  · decide
  · rfl

/-- Claim C2, amended.  Every envelope whose send is attempted while the
relay link is not writable is appended to the outbound queue in order,
nothing is transmitted before the link opens, and on open the queue is
flushed in exact FIFO order; the registration envelope is sent directly
after the flush, so the relay receives the pre-open attempts first and
register is the first envelope exactly when no send was attempted before
the link opened. -/
theorem claim2_amended (pk : String) (preOpen : List CM.Env) :
    (preOpen.foldl CM.sendMessage (CM.connState0 pk)).queue = preOpen ∧
      (preOpen.foldl CM.sendMessage (CM.connState0 pk)).sent = [] ∧
      (CM.connectAndRegister pk preOpen).sent = preOpen ++ [CM.registerEnv pk] := by
  obtain ⟨hq, hs, -, hk⟩ := foldl_send_closed preOpen (CM.connState0 pk) rfl
  have hq' : (preOpen.foldl CM.sendMessage (CM.connState0 pk)).queue = preOpen := by
    simpa [CM.connState0] using hq
  have hs' : (preOpen.foldl CM.sendMessage (CM.connState0 pk)).sent = [] := by
    simpa [CM.connState0] using hs
  have hk' : (preOpen.foldl CM.sendMessage (CM.connState0 pk)).selfKey = pk := by
    simpa [CM.connState0] using hk
  refine ⟨hq', hs', ?_⟩
  simp [CM.connectAndRegister, CM.registerWithServer, CM.sendMessage,
    CM.sendQueuedMessages, hq', hs', hk']

/-- Claim C2, witness. -/
theorem claim2_witness :
    (CM.connectAndRegister "A" []).sent = [CM.registerEnv "A"] := by
  have h := claim2_amended "A" []
  simpa using h.2.2

/-- Claim C3, counterexample.  With key exchange already complete and the
readiness event already emitted, receiving an encryption-ready envelope
from the expected recipient does not leave the emitted-event history
unchanged: the readiness event is emitted a second time, because the
encryption-ready branch of the message handler has no completion-flag
guard. -/
theorem claim3_counterexample :
    (CM.handleEncryptionReady CM.c3State "B").events ≠ CM.c3State.events := by
  decide

/-- Claim C3, amended.  With the completion flag already true, a second
trigger of the own-derivation path (`handleECDHPublicKey`) is a no-op,
and receiving encryption-ready from any sender re-derives nothing (key
material unchanged, nothing sent) and keeps the flag true, but when the
sender is the expected recipient the readiness event is emitted again:
completion is idempotent in state and key material, not in the emitted
event history. -/
theorem claim3_amended (s : CM.CMState) (sender : String)
    (derive : String → Nat) (keyB64 : String) (hc : s.complete = true) :
    CM.handleECDHPublicKey derive s keyB64 sender = s ∧
      (CM.handleEncryptionReady s sender).encKey = s.encKey ∧
      (CM.handleEncryptionReady s sender).sent = s.sent ∧
      (CM.handleEncryptionReady s sender).complete = true ∧
      (CM.handleEncryptionReady s sender).events =
        s.events ++ if some sender = s.recipient then [CM.CMEvent.encryptionReady] else [] := by
  refine ⟨?_, ?_, ?_, ?_, ?_⟩
  · simp [CM.handleECDHPublicKey, hc]
  · by_cases hr : some sender = s.recipient <;> simp [CM.handleEncryptionReady, hr]
  · by_cases hr : some sender = s.recipient <;> simp [CM.handleEncryptionReady, hr]
  · by_cases hr : some sender = s.recipient <;> simp [CM.handleEncryptionReady, hr, hc]
  · by_cases hr : some sender = s.recipient <;> simp [CM.handleEncryptionReady, hr]

/-- Claim C3, witness. -/
theorem claim3_witness :
    CM.handleECDHPublicKey (fun _ => 0) CM.c3State "k" "B" = CM.c3State ∧
      (CM.handleEncryptionReady CM.c3State "B").encKey = some 7 ∧
      (CM.handleEncryptionReady CM.c3State "B").events =
        [CM.CMEvent.encryptionReady, CM.CMEvent.encryptionReady] := by
  have h := claim3_amended CM.c3State "B" (fun _ => 0) "k" rfl
  exact ⟨h.1, h.2.1, by rw [h.2.2.2.2]; rfl⟩

/-- Claim C4, counterexample.  On an established session, `cleanup` does
not discard the key material and does not silence the coordinator: the
encryption key is still present afterwards and the close handler of the
relay socket emits a further error event. -/
theorem claim4_counterexample :
    (CM.cleanup CM.c4State).encKey ≠ none ∧ (CM.cleanup CM.c4State).events ≠ [] := by
  constructor
  · decide
  · decide

/-- Claim C4, amended.  With a live relay socket, `cleanup` closes the
socket, the peer connection and the data channel, but it leaves the
encryption key exactly as it was, and the close handler of the relay
socket then emits one error event, so one further event is emitted after
cleanup. -/
theorem claim4_amended (s : CM.CMState) (h : s.wsAlive = true) :
    (CM.cleanup s).wsAlive = false ∧ (CM.cleanup s).wsOpen = false ∧
      (CM.cleanup s).hasPC = false ∧ (CM.cleanup s).hasDC = false ∧
      (CM.cleanup s).encKey = s.encKey ∧
      (CM.cleanup s).events = s.events ++ [CM.CMEvent.error CM.wsCloseMsg] := by
  refine ⟨rfl, rfl, rfl, rfl, rfl, ?_⟩
  simp [CM.cleanup, h]

/-- Claim C4, witness. -/
theorem claim4_witness :
    (CM.cleanup CM.c4State).encKey = some 7 ∧
      (CM.cleanup CM.c4State).events = [CM.CMEvent.error CM.wsCloseMsg] := by
  have h := claim4_amended CM.c4State rfl
  exact ⟨h.2.2.2.2.1, by rw [h.2.2.2.2.2]; rfl⟩

/-- Claim C5, confirmed.  For every plaintext, session key and twelve-byte
IV, and every external AEAD pair for which decryption inverts encryption
under the same key and IV, opening a sealed blob returns the original
plaintext: the blob split at the IV length undoes the IV-prefix
framing. -/
theorem claim5_roundtrip (enc : List Nat → List Nat → List Nat → List Nat)
    (dec : List Nat → List Nat → List Nat → Option (List Nat))
    (key iv msg : List Nat) (hiv : iv.length = 12)
    (hcipher : ∀ k i m, dec k i (enc k i m) = some m) :
    SC.decryptMessage dec key (SC.encryptMessage enc key iv msg) = some msg := by
  unfold SC.decryptMessage SC.encryptMessage
  rw [← hiv, List.take_left, List.drop_left]
  exact hcipher key iv msg

/-- Claim C5, witness. -/
theorem claim5_witness :
    SC.decryptMessage (fun _ _ c => some c) []
        (SC.encryptMessage (fun _ _ m => m) [] (List.replicate 12 0) [1, 2, 3]) =
      some [1, 2, 3] :=
  claim5_roundtrip (fun _ _ m => m) (fun _ _ c => some c) [] (List.replicate 12 0)
    [1, 2, 3] (by simp) (fun _ _ _ => rfl)

/-- Claim C6, confirmed.  For every hash `H` and every pair of private
scalars with their matching public keys, `deriveSharedSecret` computed
with the private key of one party and the public key of the other is
symmetric in the two parties, so both peers derive the identical session
key. -/
theorem claim6_commutativity (H : Nat → Nat) (a b : Nat) :
    KE.deriveSharedSecret H a (KE.publicKeyOf b) =
      KE.deriveSharedSecret H b (KE.publicKeyOf a) := by
  unfold KE.deriveSharedSecret KE.getSharedSecret KE.publicKeyOf
  rw [← Nat.pow_mod, ← Nat.pow_mod, ← pow_mul, ← pow_mul, Nat.mul_comm]

/-- Claim C6, witness. -/
theorem claim6_witness :
    KE.deriveSharedSecret (fun n => n + 1) 3 (KE.publicKeyOf 5) =
      KE.deriveSharedSecret (fun n => n + 1) 5 (KE.publicKeyOf 3) :=
  claim6_commutativity (fun n => n + 1) 3 5

/-- Claim C7, confirmed.  An envelope without a recipient is delivered to
exactly the registered clients whose identity differs from the sender
field, in registry order; in particular no delivery goes to a client
registered under the identity named as sender. -/
theorem claim7_broadcast (clients : List Relay.Client) (msg : Relay.Envelope)
    (h : msg.recipient = none) :
    Relay.relayMessage clients msg =
      (clients.filter fun c => some c.publicKey ≠ msg.sender).map fun c => (c.conn, msg) := by
  unfold Relay.relayMessage
  rw [h]

/-- Claim C7, witness: a broadcast from the registered identity A reaches
the socket of B and not the socket of A. -/
theorem claim7_witness :
    Relay.relayMessage [⟨"A", 1⟩, ⟨"B", 2⟩] ⟨"ecdh-public-key", some "A", none, ""⟩ =
      [(2, ⟨"ecdh-public-key", some "A", none, ""⟩)] := by
  rw [claim7_broadcast [⟨"A", 1⟩, ⟨"B", 2⟩] ⟨"ecdh-public-key", some "A", none, ""⟩ rfl]
  decide

/-- Claim C8, confirmed.  Every reachable relay registry maps each
identity to at most one connection (the identity list is duplicate-free),
and registering an identity leaves the identity list unchanged when the
identity was already present (the matching entry is overwritten in place,
no second entry appears) while the first lookup for that identity now
yields the registering socket, which supersedes the routing of the
earlier connection. -/
theorem claim8_registry (s : List Relay.Client) (ws : Nat) (pk : String)
    (h : Relay.Reachable s) :
    (s.map Relay.Client.publicKey).Nodup ∧
      (Relay.registerClient s ws pk).map Relay.Client.publicKey =
        (if pk ∈ s.map Relay.Client.publicKey then s.map Relay.Client.publicKey
         else s.map Relay.Client.publicKey ++ [pk]) ∧
      (Relay.registerClient s ws pk).find? (fun c => c.publicKey = pk) = some ⟨pk, ws⟩ :=
  ⟨reachable_nodup s h, registerClient_map_publicKey s ws pk, registerClient_find s ws pk⟩

/-- Claim C8, witness: in the reachable registry holding only identity A,
re-registering A on a new socket keeps a single entry and routes A to the
new socket. -/
theorem claim8_witness :
    ((([⟨"A", 1⟩] : List Relay.Client)).map Relay.Client.publicKey).Nodup ∧
      (Relay.registerClient [⟨"A", 1⟩] 2 "A").map Relay.Client.publicKey = ["A"] ∧
      (Relay.registerClient [⟨"A", 1⟩] 2 "A").find? (fun c => c.publicKey = "A") =
        some ⟨"A", 2⟩ := by
  have hr : Relay.Reachable [⟨"A", 1⟩] :=
    Relay.Reachable.register [] 1 "A" Relay.Reachable.empty
  have h := claim8_registry [⟨"A", 1⟩] 2 "A" hr
  exact ⟨h.1, by rw [h.2.1]; decide, h.2.2⟩

/-- Claim C9, confirmed.  With two connections already present, every
further connection attempt is sent exactly the stringified room-full
error and its socket is closed, while the client list, and hence the two
existing connections, are left untouched. -/
theorem claim9_room_full (clients : List Nat) (ws : Nat) (h : 2 ≤ clients.length) :
    Room.onConnection clients ws = ⟨clients, [(ws, Room.roomFullMsg)], [ws]⟩ ∧
      Room.roomFullMsg = "\x7b\"type\":\"error\",\"message\":\"Room is full\"\x7d" := by
  constructor
  · simp [Room.onConnection, h]
  · rfl

/-- Claim C9, witness. -/
theorem claim9_witness :
    Room.onConnection [1, 2] 3 = ⟨[1, 2], [(3, Room.roomFullMsg)], [3]⟩ ∧
      Room.roomFullMsg = "\x7b\"type\":\"error\",\"message\":\"Room is full\"\x7d" :=
  claim9_room_full [1, 2] 3 (by decide)

/-- Claim C10, confirmed.  Every envelope whose type is neither register
nor one of the six relayed types is silently ignored by the identity
relay: nothing is delivered, nothing is sent back, and the registry is
unchanged. -/
theorem claim10_unknown_type (clients : List Relay.Client) (conn : Nat)
    (msg : Relay.Envelope) (h1 : msg.type ≠ "register")
    (h2 : msg.type ∉ Relay.relayedTypes) :
    Relay.handleMessage clients conn msg = (clients, []) := by
  simp [Relay.handleMessage, h1, h2]

/-- Claim C10, witness: an encrypted-message envelope is ignored by the
relay. -/
theorem claim10_witness :
    Relay.handleMessage [⟨"A", 1⟩] 2 ⟨"encrypted-message", some "A", some "B", ""⟩ =
      ([⟨"A", 1⟩], []) :=
  claim10_unknown_type [⟨"A", 1⟩] 2 ⟨"encrypted-message", some "A", some "B", ""⟩
    (by decide) (by decide)

end AnRox
